import Mathlib

/-!
# Seabattle: the move codec and the turn coordinator of `src/main.cpp`

A shallow embedding of `SeabattleAgent` (`ParseMove`, `MoveToString`, `ReadMove`,
`ReadResult`, `WriteMove`, `WriteResult`, `ApplyMove`, `MakeTurn`, `WaitForTurn`,
`StartGame`) and of `StartServer`, `StartClient` and `main`.

Conventions of the embedding.

* A C++ `char` is represented by its value as an `Int` (what integral promotion
  yields); a string or a receive buffer is a `List Int`.  Whether plain `char` is
  signed is implementation defined, so conversions to `char` take a flag.
* `int` arithmetic on promoted `char`s cannot overflow and is done in `Int`.
* `seabattle.hpp` is not part of the sources at hand: the board operations, the
  enumerators of `ShotResult`, the default board and the board generator are
  parameters (`Env`).
* The console, the socket and the board calls are observed through a trace of
  `Event`s that every function returns along with its result.
-/

namespace Seabattle

/-! ## Characters and strings -/

/-- A string, a `string_view` or a byte buffer: the sequence of its `char` values. -/
abbrev Str := List Int

/-- The `char` values of a Lean string literal (ASCII). -/
def str (s : String) : Str := s.toList.map (fun c => (c.toNat : Int))

/-- The character literal `'A'`. -/
def chA : Int := 65

/-- The character literal `'1'`. -/
def ch1 : Int := 49

/-- Conversion `static_cast<char>(x)` of an `int`: reduction modulo 2^8 into the
range of `char`, which is `[-128, 127]` when `char` is signed and `[0, 255]`
otherwise. -/
def toChar (signedChar : Bool) (x : Int) : Int :=
  if signedChar then (x + 128) % 256 - 128 else x % 256

/-! ## The move codec -/

/-- `SeabattleAgent::ParseMove` (main.cpp, lines 85-94). -/
def ParseMove (sv : Str) : Option (Int × Int) :=
  if sv.length ≠ 2 then none
  else
    let p1 := sv.getD 0 0 - chA
    let p2 := sv.getD 1 0 - ch1
    if p1 < 0 ∨ p1 > 8 then none
    else if p2 < 0 ∨ p2 > 8 then none
    else some (p1, p2)

/-- `SeabattleAgent::MoveToString` (main.cpp, lines 96-99). -/
def MoveToString (signedChar : Bool) (move : Int × Int) : Str :=
  [toChar signedChar (toChar signedChar move.1 + chA),
   toChar signedChar (toChar signedChar move.2 + ch1)]

/-! ## The missing header, the transport and the console -/

/-- What `main.cpp` uses from `seabattle.hpp` and from the standard library without
defining it.  A `ShotResult` is represented by its integer value (the enumerators
are used with qualified names and converted from and to `char` with `static_cast`,
as for a scoped enumeration with underlying type `int`); the three enumerators are
parameters.  `Shoot`, `MarkMiss`, `MarkHit`, `MarkKill` and `IsLoser` are the member
functions of `SeabattleField`, acting on a board value; their two arguments are
passed in the order of the call.  `defaultField` is the default-constructed board,
`GetRandomField seed` the board obtained from the engine seeded with `seed`, and
`stoi` is `std::stoi` (`none` when it throws). -/
structure Env (F : Type) where
  signedChar : Bool
  MISS : Int
  HIT : Int
  KILL : Int
  Shoot : F → Int → Int → Int × F
  MarkMiss : F → Int → Int → F
  MarkHit : F → Int → Int → F
  MarkKill : F → Int → Int → F
  IsLoser : F → Bool
  defaultField : F
  GetRandomField : Int → F
  stoi : Str → Option Int

/-- The enumerators of `ShotResult` have pairwise different values (the `switch` of
`ApplyMove` has one `case` label for each). -/
def Env.DistinctCodes {F : Type} (env : Env F) : Prop :=
  env.MISS ≠ env.HIT ∧ env.MISS ≠ env.KILL ∧ env.HIT ≠ env.KILL

/-- A connected `tcp::socket`, seen from this peer: the bytes the peer will still
deliver before the stream ends, the number of bytes the connection still accepts
before a write fails, and the messages written so far (one entry for each
successful `net::write`). -/
structure Socket where
  incoming : Str
  sendLimit : Nat
  sent : List Str
  deriving DecidableEq, Repr

/-- The throwing overload `net::read(socket, net::buffer(buf))` for a buffer of `n`
bytes: blocks until exactly `n` bytes are transferred; `none` when the stream ends
first (it throws `boost::system::system_error`). -/
def net_read (socket : Socket) (n : Nat) : Option (Str × Socket) :=
  if n ≤ socket.incoming.length then
    some (socket.incoming.take n, { socket with incoming := socket.incoming.drop n })
  else none

/-- The throwing overload `net::write(socket, net::buffer(data))`: `none` when the
connection fails before all of `data` is transferred (it throws). -/
def net_write (socket : Socket) (data : Str) : Option Socket :=
  if data.length ≤ socket.sendLimit then
    some { socket with sendLimit := socket.sendLimit - data.length,
                       sent := socket.sent ++ [data] }
  else none

/-- The two boards of a `SeabattleAgent`. -/
inductive Board
  | my_field_
  | other_field_
  deriving DecidableEq, Repr

/-- The mutating member functions of `SeabattleField` that the agent calls. -/
inductive BoardOp
  | Shoot
  | MarkMiss
  | MarkHit
  | MarkKill
  deriving DecidableEq, Repr

/-- What a run does that can be observed, in order: text sent to `std::cout`, the
output of `PrintFields` (the two boards it renders), the dispatch of a half-turn by
`StartGame` (`mine` for `MakeTurn`, otherwise `WaitForTurn`, with the two boards at
that moment), a call of a board operation with its two arguments, and a call of
`net::write` with its payload. -/
inductive Event (F : Type)
  | cout (text : String)
  | PrintFields (my other : F)
  | halfTurn (mine : Bool) (my other : F)
  | call (board : Board) (op : BoardOp) (row col : Int)
  | write (data : Str)
  deriving DecidableEq, Repr

/-- How a call ends: it returns, an exception leaves it
(`boost::system::system_error` of a failed read or write), its behaviour is
undefined (an empty `std::optional` is dereferenced), it never returns (the prompt
loop of `MakeTurn` with no acceptable token left on `std::cin`), or the model ran
out of fuel. -/
inductive Status
  | returned
  | threw
  | undefinedBehaviour
  | hangs
  | outOfFuel
  deriving DecidableEq, Repr

/-- The agent's two boards with the socket and the tokens still to come on
`std::cin`. -/
structure State (F : Type) where
  my_field_ : F
  other_field_ : F
  socket : Socket
  cin : List Str
  deriving DecidableEq, Repr

/-- The result of running a member function: how it ended, the state it left, and
what it did. -/
structure Run (F : Type) where
  status : Status
  state : State F
  trace : List (Event F)
  deriving DecidableEq, Repr

/-! ## The agent -/

section Agent

variable {F : Type}

/-- `SeabattleAgent::IsGameEnded` (main.cpp, lines 105-107). -/
def IsGameEnded (env : Env F) (st : State F) : Bool :=
  env.IsLoser st.my_field_ || env.IsLoser st.other_field_

/-- The result of `ReadMove`. -/
inductive ReadMoveResult
  | value (move : Int × Int) (socket : Socket)
  | threw
  | undefinedBehaviour (socket : Socket)
  deriving DecidableEq, Repr

/-- `SeabattleAgent::ReadMove` (main.cpp, lines 109-113): reads 2 bytes and
dereferences the optional that `ParseMove` returns without testing it. -/
def ReadMove (socket : Socket) : ReadMoveResult :=
  match net_read socket 2 with
  | none => .threw
  | some (recv_buf, socket1) =>
    match ParseMove recv_buf with
    | some move => .value move socket1
    | none => .undefinedBehaviour socket1

/-- `SeabattleAgent::ReadResult` (main.cpp, lines 115-119): reads 1 byte and converts
it to a `ShotResult`; `none` when the read throws. -/
def ReadResult (socket : Socket) : Option (Int × Socket) :=
  match net_read socket 1 with
  | none => none
  | some (recv_buf, socket1) => some (recv_buf.getD 0 0, socket1)

/-- `SeabattleAgent::WriteMove` (main.cpp, lines 121-124); `none` when the write
throws.  The second component is the payload handed to `net::write`. -/
def WriteMove (env : Env F) (socket : Socket) (move : Int × Int) : Option Socket × Str :=
  let send_buf := MoveToString env.signedChar move
  (net_write socket send_buf, send_buf)

/-- `SeabattleAgent::WriteResult` (main.cpp, lines 126-129). -/
def WriteResult (env : Env F) (socket : Socket) (result : Int) : Option Socket × Str :=
  let send_buf := [toChar env.signedChar result]
  (net_write socket send_buf, send_buf)

/-- `SeabattleAgent::ApplyMove` (main.cpp, lines 131-143): a `switch` over the three
enumerators with no `default`.  `board` names the member that `field` refers to. -/
def ApplyMove (env : Env F) (board : Board) (field : F) (move : Int × Int) (result : Int) :
    F × List (Event F) :=
  if result = env.MISS then
    (env.MarkMiss field move.2 move.1, [.call board .MarkMiss move.2 move.1])
  else if result = env.HIT then
    (env.MarkHit field move.2 move.1, [.call board .MarkHit move.2 move.1])
  else if result = env.KILL then
    (env.MarkKill field move.2 move.1, [.call board .MarkKill move.2 move.1])
  else (field, [])

/-- The prompt loop of `MakeTurn` (main.cpp, lines 149-153): print the prompt, take
the next token of `std::cin`, parse it, repeat until it parses.  The result is the
number of prompts printed and, when a token parsed, the move with the tokens left.
With no token left the extraction fails, `raw_move` keeps a value that does not
parse, and the loop never ends: the move is `none`. -/
def promptLoop : List Str → Nat × Option ((Int × Int) × List Str)
  | [] => (1, none)
  | raw_move :: rest =>
    match ParseMove raw_move with
    | some move => (1, some (move, rest))
    | none => ((promptLoop rest).1 + 1, (promptLoop rest).2)

/-- The text `MakeTurn` prints for `n` prompts. -/
def prompts (n : Nat) : List (Event F) := List.replicate n (.cout "Your Turn: ")

/-- `SeabattleAgent::MakeTurn` (main.cpp, lines 145-159). -/
def MakeTurn (env : Env F) (st : State F) : Run F :=
  match promptLoop st.cin with
  | (n, none) => ⟨.hangs, { st with cin := [] }, prompts n⟩
  | (n, some (move, cin1)) =>
    let out : List (Event F) := prompts n
    match WriteMove env st.socket move with
    | (none, data) => ⟨.threw, { st with cin := cin1 }, out ++ [.write data]⟩
    | (some socket1, data) =>
      match ReadResult socket1 with
      | none => ⟨.threw, { st with cin := cin1, socket := socket1 }, out ++ [.write data]⟩
      | some (move_result, socket2) =>
        let r := ApplyMove env .other_field_ st.other_field_ move move_result
        ⟨.returned, { st with cin := cin1, socket := socket2, other_field_ := r.1 },
          out ++ [.write data] ++ r.2⟩

/-- `SeabattleAgent::WaitForTurn` (main.cpp, lines 161-169). -/
def WaitForTurn (env : Env F) (st : State F) : Run F :=
  let out : List (Event F) := [.cout "Waiting for turn...\n"]
  match ReadMove st.socket with
  | .threw => ⟨.threw, st, out⟩
  | .undefinedBehaviour socket1 => ⟨.undefinedBehaviour, { st with socket := socket1 }, out⟩
  | .value move socket1 =>
    let shot := env.Shoot st.my_field_ move.2 move.1
    let move_result := shot.1
    let r := ApplyMove env .my_field_ shot.2 move move_result
    let calls : List (Event F) := .call .my_field_ .Shoot move.2 move.1 :: r.2
    match WriteResult env socket1 move_result with
    | (none, data) =>
      ⟨.threw, { st with socket := socket1, my_field_ := r.1 }, out ++ calls ++ [.write data]⟩
    | (some socket2, data) =>
      ⟨.returned, { st with socket := socket2, my_field_ := r.1 },
        out ++ calls ++ [.write data]⟩

/-- The loop of `SeabattleAgent::StartGame` (main.cpp, lines 70-82), with a bound on
the number of iterations. -/
def StartGameLoop (env : Env F) : Nat → Bool → State F → Run F
  | 0, _, st => ⟨.outOfFuel, st, []⟩
  | fuel + 1, my_initiative, st =>
    if IsGameEnded env st then ⟨.returned, st, []⟩
    else
      let head : List (Event F) :=
        [.PrintFields st.my_field_ st.other_field_,
         .halfTurn my_initiative st.my_field_ st.other_field_]
      let r := if my_initiative then MakeTurn env st else WaitForTurn env st
      match r.status with
      | .returned =>
        let r1 := StartGameLoop env fuel (!my_initiative) r.state
        ⟨r1.status, r1.state, head ++ r.trace ++ r1.trace⟩
      | s => ⟨s, r.state, head ++ r.trace⟩

/-- `SeabattleAgent::StartGame` (main.cpp, lines 70-82).  Every half-turn that returns
has consumed at least one incoming byte, so one iteration more than there are
incoming bytes is enough for the loop to end. -/
def StartGame (env : Env F) (my_initiative : Bool) (st : State F) : Run F :=
  StartGameLoop env (st.socket.incoming.length + 1) my_initiative st

end Agent

/-! ## The process -/

/-- How `StartServer`, `StartClient` and `main` end: with a return value (for `main`
the exit status of the process), with an exception leaving the function (for `main`:
uncaught), or as the turn loop ended when it did not return. -/
inductive Exit
  | code (n : Int)
  | exception
  | undefinedBehaviour
  | hangs
  | outOfFuel
  deriving DecidableEq, Repr

/-- The end of a function that returns `n` after a call that ended with `s`. -/
def Exit.after (s : Status) (n : Int) : Exit :=
  match s with
  | .returned => .code n
  | .threw => .exception
  | .undefinedBehaviour => .undefinedBehaviour
  | .hangs => .hangs
  | .outOfFuel => .outOfFuel

/-- What the process finds around it: the tokens on `std::cin`, whether the acceptor
can be opened, the socket `accept` yields (`none` when it reports an error), which
strings `make_address` accepts, and the socket `connect` yields. -/
structure World where
  cin : List Str
  listen : Bool
  accepted : Option Socket
  addressOk : Str → Bool
  connected : Option Socket

section Process

variable {F : Type}

/-- `StartServer` (main.cpp, lines 176-194); the port only selects the `World`. -/
def StartServer (env : Env F) (field : F) (w : World) : Exit × List (Event F) :=
  if w.listen = false then (.exception, [])
  else
    let out : List (Event F) := [.cout "Waiting for connection...\n"]
    match w.accepted with
    | none => (.code 1, out ++ [.cout "Can't accept connection\n"])
    | some socket =>
      let r := StartGame env false ⟨field, env.defaultField, socket, w.cin⟩
      (Exit.after r.status 0, out ++ r.trace)

/-- `StartClient` (main.cpp, lines 196-218). -/
def StartClient (env : Env F) (field : F) (ip_str : Str) (w : World) :
    Exit × List (Event F) :=
  if w.addressOk ip_str = false then (.code 1, [.cout "Wrong IP format\n"])
  else
    match w.connected with
    | none => (.code 1, [.cout "Can't connect to server\n"])
    | some socket =>
      let r := StartGame env true ⟨field, env.defaultField, socket, w.cin⟩
      (Exit.after r.status 0, r.trace)

/-- `main` (main.cpp, lines 220-238).  The first `std::stoi` is outside the `try`
block.  The handler prints `exc.what()` and has no `return`: control reaches the end
of `main`, which returns 0. -/
def main (env : Env F) (argv : List Str) (w : World) : Exit × List (Event F) :=
  let argc := argv.length
  if argc ≠ 3 ∧ argc ≠ 4 then (.code 1, [.cout "Usage: program <seed> [<ip>] <port>\n"])
  else
    match env.stoi (argv.getD 1 []) with
    | none => (.exception, [])
    | some seed =>
      let fieldL := env.GetRandomField seed
      let body : Exit × List (Event F) :=
        if argc = 3 then
          match env.stoi (argv.getD 2 []) with
          | none => (.exception, [])
          | some _ => StartServer env fieldL w
        else
          match env.stoi (argv.getD 3 []) with
          | none => (.exception, [])
          | some _ => StartClient env fieldL (argv.getD 2 []) w
      match body.1 with
      | .exception => (.code 0, body.2 ++ [.cout "exc.what()\n"])
      | e => (e, body.2)

end Process

/-! ## A board to run the agent on -/

/-- Modelled from the spec: `SeabattleField` of `seabattle.hpp`, which is not among
the sources.  A board keeps, for each ship, the cells of it that are not yet hit,
the cells whose outcome is known, and the number of ship cells still afloat. -/
structure SpecField where
  ships : List (List (Int × Int))
  known : List (Int × Int)
  afloat : Nat
  deriving DecidableEq, Repr

/-- Modelled from the spec: `Shoot(row, col)`.  A cell that was already shot yields
`MISS` (0) and changes nothing; a live ship cell is removed from its ship and yields
`KILL` (2) when the ship has no cell left, `HIT` (1) otherwise; an empty cell yields
`MISS`. -/
def SpecField.Shoot (f : SpecField) (row col : Int) : Int × SpecField :=
  if (row, col) ∈ f.known then (0, f)
  else if f.ships.any (fun s => s.contains (row, col)) then
    let ships1 := f.ships.map (fun s => s.erase (row, col))
    let sunk := f.ships.any (fun s => s.contains (row, col) && (s.erase (row, col)).isEmpty)
    (if sunk then 2 else 1, ⟨ships1, (row, col) :: f.known, f.afloat - 1⟩)
  else (0, { f with known := (row, col) :: f.known })

/-- Modelled from the spec: `MarkMiss(row, col)` records an observed miss on a cell
whose outcome is not yet known. -/
def SpecField.MarkMiss (f : SpecField) (row col : Int) : SpecField :=
  if (row, col) ∈ f.known then f else { f with known := (row, col) :: f.known }

/-- Modelled from the spec: `MarkHit(row, col)` (and `MarkKill`, which guarantees no
more than the struck cell) records an observed hit on a cell whose outcome is not yet
known: one ship cell less is afloat. -/
def SpecField.MarkHit (f : SpecField) (row col : Int) : SpecField :=
  if (row, col) ∈ f.known then f
  else { f with known := (row, col) :: f.known, afloat := f.afloat - 1 }

/-- Modelled from the spec: `IsLoser()` holds when no ship cell is afloat. -/
def SpecField.IsLoser (f : SpecField) : Bool := f.afloat == 0

/-- A fleet of two ships, `A1`-`A2` and `C3` (as row and column), for the examples. -/
def sampleField : SpecField := ⟨[[(0, 0), (1, 0)], [(2, 2)]], [], 3⟩

/-- The shadow board before any result is known: three ship cells afloat. -/
def shadowField : SpecField := ⟨[], [], 3⟩

/-- A decimal numeral without sign, for the examples (`std::stoi` accepts more). -/
def sampleStoi (s : Str) : Option Int :=
  if s = [] ∨ s.any (fun c => decide (c < 48 ∨ c > 57)) then none
  else some (s.foldl (fun n c => 10 * n + (c - 48)) 0)

/-- The environment of the examples: signed `char`, `MISS = 0`, `HIT = 1`,
`KILL = 2`, the board above, and every seed giving `sampleField`. -/
def sampleEnv : Env SpecField where
  signedChar := true
  MISS := 0
  HIT := 1
  KILL := 2
  Shoot := SpecField.Shoot
  MarkMiss := SpecField.MarkMiss
  MarkHit := SpecField.MarkHit
  MarkKill := SpecField.MarkHit
  IsLoser := SpecField.IsLoser
  defaultField := shadowField
  GetRandomField := fun _ => sampleField
  stoi := sampleStoi

/-! ## Reading a trace -/

section Trace

variable {F : Type}

/-- The half-turns that a trace dispatches, in order: `true` for `MakeTurn`, `false`
for `WaitForTurn`. -/
def halfTurns (t : List (Event F)) : List Bool :=
  t.filterMap (fun e => match e with
    | .halfTurn mine _ _ => some mine
    | _ => none)

/-- The calls of board operations in a trace, in order: the board, the operation and
its two arguments. -/
def boardCalls (t : List (Event F)) : List (Board × BoardOp × Int × Int) :=
  t.filterMap (fun e => match e with
    | .call board op row col => some (board, op, row, col)
    | _ => none)

/-- The payloads of the calls of `net::write` in a trace, in order. -/
def writes (t : List (Event F)) : List Str :=
  t.filterMap (fun e => match e with
    | .write data => some data
    | _ => none)

/-- The test `ParseMove` applies to a candidate: does it yield a move. -/
def accepted (s : Str) : Bool := (ParseMove s).isSome

/-- The rule of alternation as the specification words it: in a loop started with
initiative `b`, the half-turn with index `n` (`n = 0, 1, 2, ...`) is a `MY_TURN`
half-turn exactly when `b` holds and `n` is even, or `b` does not hold and `n` is
odd. -/
def isMyTurn (b : Bool) (n : Nat) : Bool :=
  (b && n % 2 == 0) || (!b && n % 2 == 1)

/-- The turn loop as the specification words it, to be compared with
`StartGameLoop`: the half-turns are counted, and the one with index `n` runs
`MakeTurn` when `isMyTurn b n` holds and `WaitForTurn` otherwise; there is no
initiative variable that is toggled. -/
def alternatingLoop (env : Env F) (b : Bool) : Nat → Nat → State F → Run F
  | 0, _, st => ⟨.outOfFuel, st, []⟩
  | fuel + 1, n, st =>
    if IsGameEnded env st then ⟨.returned, st, []⟩
    else
      let head : List (Event F) :=
        [.PrintFields st.my_field_ st.other_field_,
         .halfTurn (isMyTurn b n) st.my_field_ st.other_field_]
      let r := if isMyTurn b n then MakeTurn env st else WaitForTurn env st
      match r.status with
      | .returned =>
        let r1 := alternatingLoop env b fuel (n + 1) r.state
        ⟨r1.status, r1.state, head ++ r.trace ++ r1.trace⟩
      | s => ⟨s, r.state, head ++ r.trace⟩

end Trace

/-- The value of an ASCII character. -/
def ord (c : Char) : Int := c.toNat

/-! ## Properties of the move codec -/

theorem toChar_of_ascii (signedChar : Bool) (x : Int) (h0 : 0 ≤ x) (h1 : x ≤ 127) :
    toChar signedChar x = x := by
  unfold toChar
  split <;> omega

theorem ParseMove_pair (c0 c1 : Int) :
    ParseMove [c0, c1] =
      if 65 ≤ c0 ∧ c0 ≤ 73 ∧ 49 ≤ c1 ∧ c1 ≤ 57 then some (c0 - 65, c1 - 49) else none := by
  simp only [ParseMove, chA, ch1, List.length_cons, List.length_nil, List.getD_cons_zero,
    List.getD_cons_succ]
  split_ifs <;> first | rfl | omega

theorem ParseMove_some_iff (s : Str) (m : Int × Int) :
    ParseMove s = some m ↔
      ∃ c0 c1, s = [c0, c1] ∧ 65 ≤ c0 ∧ c0 ≤ 73 ∧ 49 ≤ c1 ∧ c1 ≤ 57 ∧ m = (c0 - 65, c1 - 49) := by
  constructor
  · intro h
    match s, h with
    | [], h => simp [ParseMove] at h
    | [_], h => simp [ParseMove] at h
    | _ :: _ :: _ :: _, h => simp [ParseMove] at h
    | [c0, c1], h =>
      rw [ParseMove_pair] at h
      split_ifs at h with hc
      obtain ⟨h1, h2, h3, h4⟩ := hc
      exact ⟨c0, c1, rfl, h1, h2, h3, h4, (Option.some.inj h).symm⟩
  · rintro ⟨c0, c1, rfl, h1, h2, h3, h4, rfl⟩
    rw [ParseMove_pair, if_pos ⟨h1, h2, h3, h4⟩]

theorem MoveToString_of_range (signedChar : Bool) (a b : Int)
    (ha : 0 ≤ a ∧ a ≤ 8) (hb : 0 ≤ b ∧ b ≤ 8) :
    MoveToString signedChar (a, b) = [a + 65, b + 49] := by
  simp only [MoveToString, chA, ch1]
  rw [toChar_of_ascii signedChar a (by omega) (by omega),
    toChar_of_ascii signedChar b (by omega) (by omega),
    toChar_of_ascii signedChar (a + 65) (by omega) (by omega),
    toChar_of_ascii signedChar (b + 49) (by omega) (by omega)]

/-- C1: for every pair `(a, b)` with both components in `[0, 8]`, `MoveToString` gives
2 bytes, `ParseMove` of them returns the pair `(a, b)`, and `MoveToString` of the
pair that `ParseMove` returned gives the same 2 bytes again (whether `char` is
signed or not). -/
theorem move_roundtrip (signedChar : Bool) (a b : Int)
    (ha : 0 ≤ a ∧ a ≤ 8) (hb : 0 ≤ b ∧ b ≤ 8) :
    (MoveToString signedChar (a, b)).length = 2 ∧
    ParseMove (MoveToString signedChar (a, b)) = some (a, b) ∧
    ∀ m, ParseMove (MoveToString signedChar (a, b)) = some m →
      MoveToString signedChar m = MoveToString signedChar (a, b) := by
  have hp : ParseMove (MoveToString signedChar (a, b)) = some (a, b) := by
    rw [MoveToString_of_range signedChar a b ha hb, ParseMove_pair,
      if_pos ⟨by omega, by omega, by omega, by omega⟩]
    simp
  refine ⟨rfl, hp, ?_⟩
  intro m hm
  rw [hp] at hm
  rw [← Option.some.inj hm]

theorem move_roundtrip_witness :
    (MoveToString true (8, 0)).length = 2 ∧
    ParseMove (MoveToString true (8, 0)) = some (8, 0) ∧
    ∀ m, ParseMove (MoveToString true (8, 0)) = some m →
      MoveToString true m = MoveToString true (8, 0) :=
  move_roundtrip true 8 0 (by decide) (by decide)

/-- C2: `ParseMove s` returns a move exactly when `s` has exactly 2 characters, the
first in `'A'..'I'` and the second in `'1'..'9'`; the move is then
`(first - 'A', second - '1')` with both components in `[0, 8]`; every other string is
rejected, among them the empty string, one character, three characters, a lowercase
letter, the digit `'0'`, the letter `'J'` and the swapped order. -/
theorem ParseMove_accepts_iff (s : Str) :
    ((∃ m, ParseMove s = some m) ↔
      ∃ c0 c1, s = [c0, c1] ∧ ord 'A' ≤ c0 ∧ c0 ≤ ord 'I' ∧ ord '1' ≤ c1 ∧ c1 ≤ ord '9') ∧
    (∀ c0 c1, s = [c0, c1] → ord 'A' ≤ c0 ∧ c0 ≤ ord 'I' ∧ ord '1' ≤ c1 ∧ c1 ≤ ord '9' →
      ParseMove s = some (c0 - ord 'A', c1 - ord '1') ∧
      0 ≤ c0 - ord 'A' ∧ c0 - ord 'A' ≤ 8 ∧ 0 ≤ c1 - ord '1' ∧ c1 - ord '1' ≤ 8) ∧
    ((¬ ∃ c0 c1, s = [c0, c1] ∧ ord 'A' ≤ c0 ∧ c0 ≤ ord 'I' ∧ ord '1' ≤ c1 ∧ c1 ≤ ord '9') →
      ParseMove s = none) ∧
    ParseMove (str "") = none ∧ ParseMove (str "A") = none ∧
    ParseMove (str "A10") = none ∧ ParseMove (str "a1") = none ∧
    ParseMove (str "A0") = none ∧ ParseMove (str "J1") = none ∧
    ParseMove (str "1A") = none := by
  have hA : ord 'A' = 65 := by decide
  have hI : ord 'I' = 73 := by decide
  have h1 : ord '1' = 49 := by decide
  have h9 : ord '9' = 57 := by decide
  rw [hA, hI, h1, h9]
  have key : (∃ m, ParseMove s = some m) ↔
      ∃ c0 c1, s = [c0, c1] ∧ (65 : Int) ≤ c0 ∧ c0 ≤ 73 ∧ (49 : Int) ≤ c1 ∧ c1 ≤ 57 := by
    constructor
    · rintro ⟨m, hm⟩
      obtain ⟨c0, c1, hs, h⟩ := (ParseMove_some_iff s m).1 hm
      exact ⟨c0, c1, hs, h.1, h.2.1, h.2.2.1, h.2.2.2.1⟩
    · rintro ⟨c0, c1, hs, a1, a2, a3, a4⟩
      exact ⟨_, (ParseMove_some_iff s _).2 ⟨c0, c1, hs, a1, a2, a3, a4, rfl⟩⟩
  refine ⟨key, ?_, ?_, by decide, by decide, by decide, by decide, by decide, by decide,
    by decide⟩
  · rintro c0 c1 rfl ⟨a1, a2, a3, a4⟩
    refine ⟨?_, by omega, by omega, by omega, by omega⟩
    rw [ParseMove_pair, if_pos ⟨a1, a2, a3, a4⟩]
  · intro hn
    cases h : ParseMove s with
    | none => rfl
    | some m => exact absurd (key.1 ⟨m, h⟩) hn

theorem ParseMove_accepts_iff_witness :
    ParseMove (str "C7") = some (ord 'C' - ord 'A', ord '7' - ord '1') ∧
    0 ≤ ord 'C' - ord 'A' ∧ ord 'C' - ord 'A' ≤ 8 ∧
    0 ≤ ord '7' - ord '1' ∧ ord '7' - ord '1' ≤ 8 :=
  (ParseMove_accepts_iff (str "C7")).2.1 (ord 'C') (ord '7') (by decide) (by decide)

/-! ## Properties of a half-turn -/

section HalfTurn

variable {F : Type}

theorem MoveToString_ParseMove (signedChar : Bool) (s : Str) (m : Int × Int)
    (h : ParseMove s = some m) : MoveToString signedChar m = s := by
  obtain ⟨c0, c1, rfl, h1, h2, h3, h4, rfl⟩ := (ParseMove_some_iff s m).1 h
  rw [MoveToString_of_range signedChar _ _ (by omega) (by omega)]
  simp

theorem promptLoop_of_find (cin : List Str) (c : Str) (h : cin.find? accepted = some c) :
    ∃ n m rest, promptLoop cin = (n, some (m, rest)) ∧ ParseMove c = some m := by
  induction cin with
  | nil => simp at h
  | cons raw rest ih =>
    cases hp : ParseMove raw with
    | some m =>
      have hc : raw = c := by simpa [List.find?, accepted, hp] using h
      subst hc
      exact ⟨1, m, rest, by simp [promptLoop, hp], hp⟩
    | none =>
      have hc : rest.find? accepted = some c := by simpa [List.find?, accepted, hp] using h
      obtain ⟨n, m, rest1, h1, h2⟩ := ih hc
      exact ⟨n + 1, m, rest1, by simp [promptLoop, hp, h1], h2⟩

theorem find_of_mem (cin : List Str) (h : ∃ s ∈ cin, accepted s = true) :
    ∃ c, cin.find? accepted = some c := by
  obtain ⟨s, hs, ha⟩ := h
  cases hf : cin.find? accepted with
  | some c => exact ⟨c, rfl⟩
  | none => exact absurd ha (by simpa using List.find?_eq_none.1 hf s hs)

theorem writes_prompts (n : Nat) : writes (prompts n : List (Event F)) = [] := by
  induction n with
  | zero => rfl
  | succ k ih => simp [writes, prompts, List.replicate_succ]

theorem boardCalls_prompts (n : Nat) : boardCalls (prompts n : List (Event F)) = [] := by
  induction n with
  | zero => rfl
  | succ k ih => simp [boardCalls, prompts, List.replicate_succ]

theorem halfTurns_prompts (n : Nat) : halfTurns (prompts n : List (Event F)) = [] := by
  induction n with
  | zero => rfl
  | succ k ih => simp [halfTurns, prompts, List.replicate_succ]

theorem writes_ApplyMove (env : Env F) (board : Board) (field : F) (move : Int × Int)
    (result : Int) : writes (ApplyMove env board field move result).2 = [] := by
  unfold ApplyMove
  split_ifs <;> rfl

theorem halfTurns_ApplyMove (env : Env F) (board : Board) (field : F) (move : Int × Int)
    (result : Int) : halfTurns (ApplyMove env board field move result).2 = [] := by
  unfold ApplyMove
  split_ifs <;> rfl

theorem shoot_ApplyMove (env : Env F) (board : Board) (field : F) (move : Int × Int)
    (result : Int) :
    (boardCalls (ApplyMove env board field move result).2).filter
      (fun c => decide (c.2.1 = BoardOp.Shoot)) = [] := by
  unfold ApplyMove
  split_ifs <;> simp [boardCalls]

theorem net_read_cons (socket : Socket) (c : Int) (rest : Str)
    (h : socket.incoming = c :: rest) :
    net_read socket 1 = some ([c], { socket with incoming := rest }) := by
  simp [net_read, h]

theorem net_read_cons2 (socket : Socket) (c0 c1 : Int) (rest : Str)
    (h : socket.incoming = c0 :: c1 :: rest) :
    net_read socket 2 = some ([c0, c1], { socket with incoming := rest }) := by
  simp [net_read, h]

theorem ReadMove_valid (socket : Socket) (L D : Int) (rest : Str)
    (hin : socket.incoming = L :: D :: rest)
    (hL : 65 ≤ L ∧ L ≤ 73) (hD : 49 ≤ D ∧ D ≤ 57) :
    ReadMove socket = .value (L - 65, D - 49) { socket with incoming := rest } := by
  simp only [ReadMove, net_read_cons2 socket L D rest hin, ParseMove_pair,
    if_pos (⟨hL.1, hL.2, hD.1, hD.2⟩ : 65 ≤ L ∧ L ≤ 73 ∧ 49 ≤ D ∧ D ≤ 57)]

/-- C3: when `WaitForTurn` receives the two bytes `[L][D]` with `L` in `'A'..'I'` and
`D` in `'1'..'9'`, the trace has exactly one call of `Shoot`, on `my_field_`, with
first argument (row) `D - '1'` and second argument (column) `L - 'A'`; exactly one
`net::write` is issued and its payload is the single byte
`static_cast<char>(result)` for the result that this call of `Shoot` returned; the
byte is delivered and the half-turn returns when the connection accepts one byte,
and otherwise the write throws.  The authoritative board afterwards is the board
that this one call of `Shoot` left, with the result applied to it by `ApplyMove`;
the board calls of the half-turn are that `Shoot` followed by those of `ApplyMove`;
`other_field_` is unchanged. -/
theorem WaitForTurn_shoots_once (env : Env F) (st : State F) (L D : Int) (rest : Str)
    (hin : st.socket.incoming = L :: D :: rest)
    (hL : ord 'A' ≤ L ∧ L ≤ ord 'I') (hD : ord '1' ≤ D ∧ D ≤ ord '9') :
    (boardCalls (WaitForTurn env st).trace).filter (fun c => decide (c.2.1 = BoardOp.Shoot)) =
        [(Board.my_field_, BoardOp.Shoot, D - ord '1', L - ord 'A')] ∧
    writes (WaitForTurn env st).trace =
        [[toChar env.signedChar (env.Shoot st.my_field_ (D - ord '1') (L - ord 'A')).1]] ∧
    (1 ≤ st.socket.sendLimit →
      (WaitForTurn env st).status = .returned ∧
      (WaitForTurn env st).state.socket.sent = st.socket.sent ++
        [[toChar env.signedChar (env.Shoot st.my_field_ (D - ord '1') (L - ord 'A')).1]]) ∧
    (st.socket.sendLimit < 1 → (WaitForTurn env st).status = .threw) ∧
    (WaitForTurn env st).state.other_field_ = st.other_field_ ∧
    (WaitForTurn env st).state.my_field_ =
      (ApplyMove env .my_field_ (env.Shoot st.my_field_ (D - ord '1') (L - ord 'A')).2
        (L - ord 'A', D - ord '1')
        (env.Shoot st.my_field_ (D - ord '1') (L - ord 'A')).1).1 ∧
    boardCalls (WaitForTurn env st).trace =
      (Board.my_field_, BoardOp.Shoot, D - ord '1', L - ord 'A') ::
        boardCalls (ApplyMove env .my_field_
          (env.Shoot st.my_field_ (D - ord '1') (L - ord 'A')).2 (L - ord 'A', D - ord '1')
          (env.Shoot st.my_field_ (D - ord '1') (L - ord 'A')).1).2 := by
  have hA : ord 'A' = 65 := by decide
  have hI : ord 'I' = 73 := by decide
  have h1 : ord '1' = 49 := by decide
  have h9 : ord '9' = 57 := by decide
  rw [hA, hI] at hL
  rw [h1, h9] at hD
  rw [hA, h1]
  have hcalls := shoot_ApplyMove env .my_field_ (env.Shoot st.my_field_ (D - 49) (L - 65)).2
    (L - 65, D - 49) (env.Shoot st.my_field_ (D - 49) (L - 65)).1
  have hwr := writes_ApplyMove env .my_field_ (env.Shoot st.my_field_ (D - 49) (L - 65)).2
    (L - 65, D - 49) (env.Shoot st.my_field_ (D - 49) (L - 65)).1
  simp only [boardCalls] at hcalls
  simp only [writes] at hwr
  by_cases hs : 1 ≤ st.socket.sendLimit
  · simp [WaitForTurn, ReadMove_valid st.socket L D rest hin hL hD, WriteResult, net_write, hs,
      boardCalls, writes, List.filterMap_append, hcalls, hwr]
    omega
  · simp [WaitForTurn, ReadMove_valid st.socket L D rest hin hL hD, WriteResult, net_write, hs,
      boardCalls, writes, List.filterMap_append, hcalls, hwr]

theorem WaitForTurn_shoots_once_witness :
    (boardCalls (WaitForTurn sampleEnv
        ⟨sampleField, shadowField, ⟨str "A2", 1, []⟩, []⟩).trace).filter
        (fun c => decide (c.2.1 = BoardOp.Shoot)) =
        [(Board.my_field_, BoardOp.Shoot, ord '2' - ord '1', ord 'A' - ord 'A')] ∧
    writes (WaitForTurn sampleEnv ⟨sampleField, shadowField, ⟨str "A2", 1, []⟩, []⟩).trace =
        [[toChar true (SpecField.Shoot sampleField (ord '2' - ord '1') (ord 'A' - ord 'A')).1]] ∧
    (1 ≤ 1 →
      (WaitForTurn sampleEnv ⟨sampleField, shadowField, ⟨str "A2", 1, []⟩, []⟩).status
        = .returned ∧
      (WaitForTurn sampleEnv ⟨sampleField, shadowField, ⟨str "A2", 1, []⟩, []⟩).state.socket.sent
        = [] ++
        [[toChar true (SpecField.Shoot sampleField (ord '2' - ord '1') (ord 'A' - ord 'A')).1]]) ∧
    (1 < 1 → (WaitForTurn sampleEnv ⟨sampleField, shadowField, ⟨str "A2", 1, []⟩, []⟩).status
        = .threw) ∧
    (WaitForTurn sampleEnv ⟨sampleField, shadowField, ⟨str "A2", 1, []⟩, []⟩).state.other_field_
        = shadowField ∧
    (WaitForTurn sampleEnv ⟨sampleField, shadowField, ⟨str "A2", 1, []⟩, []⟩).state.my_field_ =
      (ApplyMove sampleEnv .my_field_
        (SpecField.Shoot sampleField (ord '2' - ord '1') (ord 'A' - ord 'A')).2
        (ord 'A' - ord 'A', ord '2' - ord '1')
        (SpecField.Shoot sampleField (ord '2' - ord '1') (ord 'A' - ord 'A')).1).1 ∧
    boardCalls (WaitForTurn sampleEnv
        ⟨sampleField, shadowField, ⟨str "A2", 1, []⟩, []⟩).trace =
      (Board.my_field_, BoardOp.Shoot, ord '2' - ord '1', ord 'A' - ord 'A') ::
        boardCalls (ApplyMove sampleEnv .my_field_
          (SpecField.Shoot sampleField (ord '2' - ord '1') (ord 'A' - ord 'A')).2
          (ord 'A' - ord 'A', ord '2' - ord '1')
          (SpecField.Shoot sampleField (ord '2' - ord '1') (ord 'A' - ord 'A')).1).2 :=
  WaitForTurn_shoots_once sampleEnv ⟨sampleField, shadowField, ⟨str "A2", 1, []⟩, []⟩
    (ord 'A') (ord '2') [] (by decide) (by decide) (by decide)

theorem MakeTurn_eq (env : Env F) (st : State F) (c : Str) (m : Int × Int) (r : Int)
    (rest : Str) (hfind : st.cin.find? accepted = some c) (hm : ParseMove c = some m)
    (hsend : 2 ≤ st.socket.sendLimit) (hin : st.socket.incoming = r :: rest) :
    ∃ n cin1, MakeTurn env st =
      ⟨.returned,
        { st with
          cin := cin1,
          socket := ⟨rest, st.socket.sendLimit - 2, st.socket.sent ++ [c]⟩,
          other_field_ := (ApplyMove env .other_field_ st.other_field_ m r).1 },
        prompts n ++ [.write c] ++ (ApplyMove env .other_field_ st.other_field_ m r).2⟩ := by
  obtain ⟨n, m1, cin1, hp, hm1⟩ := promptLoop_of_find st.cin c hfind
  rw [hm] at hm1
  obtain rfl := Option.some.inj hm1
  refine ⟨n, cin1, ?_⟩
  have hmc := MoveToString_ParseMove env.signedChar c m hm
  have hlen : c.length = 2 := by rw [← hmc]; rfl
  simp [MakeTurn, hp, WriteMove, net_write, hmc, hlen, hsend, ReadResult, net_read, hin]

theorem writes_append (a b : List (Event F)) : writes (a ++ b) = writes a ++ writes b := by
  simp [writes, List.filterMap_append]

theorem writes_MakeTurn (env : Env F) (st : State F) (c : Str)
    (hfind : st.cin.find? accepted = some c) :
    writes (MakeTurn env st).trace = [c] := by
  obtain ⟨n, m, cin1, hp, hm⟩ := promptLoop_of_find st.cin c hfind
  have hw : writes (prompts n : List (Event F)) = [] := writes_prompts n
  have hmc := MoveToString_ParseMove env.signedChar c m hm
  simp only [MakeTurn, hp, WriteMove, hmc]
  cases net_write st.socket c with
  | none =>
    show writes (prompts n ++ [.write c]) = [c]
    rw [writes_append, hw]; rfl
  | some socket1 =>
    dsimp only
    cases ReadResult socket1 with
    | none =>
      show writes (prompts n ++ [.write c]) = [c]
      rw [writes_append, hw]; rfl
    | some p =>
      obtain ⟨mr, s2⟩ := p
      show writes (prompts n ++ [.write c] ++
        (ApplyMove env .other_field_ st.other_field_ m mr).2) = [c]
      rw [writes_append, writes_append, hw, writes_ApplyMove]; rfl

/-- C4: in `MakeTurn` with validated move `[L][D]` (the first token of `std::cin` that
`ParseMove` accepts), the move sent, and a received result `r` that is the value of
`MISS`, `HIT` or `KILL`, the half-turn returns and its trace has exactly one board
call: on `other_field_`, `MarkMiss` for `MISS`, `MarkHit` for `HIT`, `MarkKill` for
`KILL`, with first argument (row) `D - '1'` and second argument (column) `L - 'A'`;
`other_field_` becomes the result of that operation and `my_field_` is unchanged. -/
theorem MakeTurn_marks_shadow (env : Env F) (st : State F) (L D r : Int) (rest : Str)
    (hcodes : env.DistinctCodes)
    (hmove : st.cin.find? accepted = some [L, D])
    (hsend : 2 ≤ st.socket.sendLimit)
    (hin : st.socket.incoming = r :: rest)
    (hr : r = env.MISS ∨ r = env.HIT ∨ r = env.KILL) :
    (MakeTurn env st).status = .returned ∧
    (MakeTurn env st).state.my_field_ = st.my_field_ ∧
    (r = env.MISS →
      boardCalls (MakeTurn env st).trace =
        [(Board.other_field_, BoardOp.MarkMiss, D - ord '1', L - ord 'A')] ∧
      (MakeTurn env st).state.other_field_ =
        env.MarkMiss st.other_field_ (D - ord '1') (L - ord 'A')) ∧
    (r = env.HIT →
      boardCalls (MakeTurn env st).trace =
        [(Board.other_field_, BoardOp.MarkHit, D - ord '1', L - ord 'A')] ∧
      (MakeTurn env st).state.other_field_ =
        env.MarkHit st.other_field_ (D - ord '1') (L - ord 'A')) ∧
    (r = env.KILL →
      boardCalls (MakeTurn env st).trace =
        [(Board.other_field_, BoardOp.MarkKill, D - ord '1', L - ord 'A')] ∧
      (MakeTurn env st).state.other_field_ =
        env.MarkKill st.other_field_ (D - ord '1') (L - ord 'A')) := by
  have hA : ord 'A' = 65 := by decide
  have h1 : ord '1' = 49 := by decide
  rw [hA, h1]
  obtain ⟨n, m, cin1, -, hm⟩ := promptLoop_of_find st.cin [L, D] hmove
  have hm2 : m = (L - 65, D - 49) := by
    obtain ⟨c0, c1, hc, -, -, -, -, hmm⟩ := (ParseMove_some_iff _ _).1 hm
    simp only [List.cons.injEq, and_true] at hc
    rw [hmm, hc.1, hc.2]
  subst hm2
  obtain ⟨n, cin2, heq⟩ := MakeTurn_eq env st [L, D] _ r rest hmove hm hsend hin
  have hp : boardCalls (prompts n : List (Event F)) = [] := boardCalls_prompts n
  simp only [boardCalls] at hp
  obtain ⟨h1, h2, h3⟩ := hcodes
  rw [heq]
  refine ⟨rfl, rfl, ?_, ?_, ?_⟩
  · intro h
    subst h
    simp [ApplyMove, boardCalls, List.filterMap_append, hp]
  · intro h
    subst h
    simp [ApplyMove, boardCalls, List.filterMap_append, hp, Ne.symm h1]
  · intro h
    subst h
    simp [ApplyMove, boardCalls, List.filterMap_append, hp, Ne.symm h2, Ne.symm h3]

theorem MakeTurn_marks_shadow_witness :
    (MakeTurn sampleEnv ⟨sampleField, shadowField, ⟨[1], 2, []⟩,
      [str "x", str "D5", str "A1"]⟩).status = .returned ∧
    (MakeTurn sampleEnv ⟨sampleField, shadowField, ⟨[1], 2, []⟩,
      [str "x", str "D5", str "A1"]⟩).state.my_field_ = sampleField ∧
    boardCalls (MakeTurn sampleEnv ⟨sampleField, shadowField, ⟨[1], 2, []⟩,
      [str "x", str "D5", str "A1"]⟩).trace =
        [(Board.other_field_, BoardOp.MarkHit, ord '5' - ord '1', ord 'D' - ord 'A')] ∧
    (MakeTurn sampleEnv ⟨sampleField, shadowField, ⟨[1], 2, []⟩,
      [str "x", str "D5", str "A1"]⟩).state.other_field_ =
        SpecField.MarkHit shadowField (ord '5' - ord '1') (ord 'D' - ord 'A') :=
  have h := MakeTurn_marks_shadow sampleEnv
    ⟨sampleField, shadowField, ⟨[1], 2, []⟩, [str "x", str "D5", str "A1"]⟩
    (ord 'D') (ord '5') 1 [] ⟨by decide, by decide, by decide⟩ (by decide) (by decide)
    (by decide) (by decide)
  ⟨h.1, h.2.1, (h.2.2.2.1 rfl).1, (h.2.2.2.1 rfl).2⟩

/-- C5: when the tokens on `std::cin` contain at least one string that `ParseMove`
accepts, `MakeTurn` issues exactly one `net::write`; its payload has 2 bytes and is
the first token that `ParseMove` accepts, so the tokens rejected before it cause
nothing to be written; the message is what the connection receives when it accepts
2 bytes, and nothing is delivered otherwise. -/
theorem MakeTurn_writes_first_accepted (env : Env F) (st : State F)
    (h : ∃ s ∈ st.cin, accepted s = true) :
    ∃ c, st.cin.find? accepted = some c ∧ c.length = 2 ∧
      writes (MakeTurn env st).trace = [c] ∧
      (2 ≤ st.socket.sendLimit →
        (MakeTurn env st).state.socket.sent = st.socket.sent ++ [c]) ∧
      (st.socket.sendLimit < 2 →
        (MakeTurn env st).state.socket.sent = st.socket.sent) := by
  obtain ⟨c, hfind⟩ := find_of_mem st.cin h
  obtain ⟨n, m, cin1, hp, hm⟩ := promptLoop_of_find st.cin c hfind
  have hmc := MoveToString_ParseMove env.signedChar c m hm
  have hlen : c.length = 2 := by rw [← hmc]; rfl
  refine ⟨c, hfind, hlen, writes_MakeTurn env st c hfind, ?_, ?_⟩
  · intro hs
    simp only [MakeTurn, hp, WriteMove, hmc, net_write, hlen, hs, if_true]
    cases hrr : ReadResult ⟨st.socket.incoming, st.socket.sendLimit - 2, st.socket.sent ++ [c]⟩ with
    | none => rfl
    | some p =>
      simp only [ReadResult, net_read] at hrr
      split_ifs at hrr
      simp only [Option.some.injEq] at hrr
      rw [← hrr]
  · intro hs
    have hs2 : ¬ 2 ≤ st.socket.sendLimit := by omega
    simp [MakeTurn, hp, WriteMove, hmc, net_write, hlen, hs2]

theorem MakeTurn_writes_first_accepted_witness :
    ∃ c, [str "", str "a1", str "A0", str "B7", str "C3"].find? accepted = some c ∧
      c.length = 2 ∧
      writes (MakeTurn sampleEnv ⟨sampleField, shadowField, ⟨[0], 5, []⟩,
        [str "", str "a1", str "A0", str "B7", str "C3"]⟩).trace = [c] ∧
      (2 ≤ 5 →
        (MakeTurn sampleEnv ⟨sampleField, shadowField, ⟨[0], 5, []⟩,
          [str "", str "a1", str "A0", str "B7", str "C3"]⟩).state.socket.sent = [] ++ [c]) ∧
      (5 < 2 →
        (MakeTurn sampleEnv ⟨sampleField, shadowField, ⟨[0], 5, []⟩,
          [str "", str "a1", str "A0", str "B7", str "C3"]⟩).state.socket.sent = []) :=
  MakeTurn_writes_first_accepted sampleEnv
    ⟨sampleField, shadowField, ⟨[0], 5, []⟩, [str "", str "a1", str "A0", str "B7", str "C3"]⟩
    ⟨str "B7", by decide, by decide⟩

end HalfTurn

/-! ## Properties of the turn loop -/

section Loop

variable {F : Type}

theorem halfTurns_append (a b : List (Event F)) :
    halfTurns (a ++ b) = halfTurns a ++ halfTurns b := by
  simp [halfTurns, List.filterMap_append]

theorem halfTurns_MakeTurn (env : Env F) (st : State F) :
    halfTurns (MakeTurn env st).trace = [] := by
  have hw : ∀ d : Str, halfTurns ([.write d] : List (Event F)) = [] := fun _ => rfl
  unfold MakeTurn
  repeat' split
  all_goals simp only [halfTurns_append, halfTurns_prompts, halfTurns_ApplyMove, hw,
    List.append_nil]

theorem halfTurns_WaitForTurn (env : Env F) (st : State F) :
    halfTurns (WaitForTurn env st).trace = [] := by
  have hw : ∀ d : Str, halfTurns ([.write d] : List (Event F)) = [] := fun _ => rfl
  have hc : halfTurns ([.cout "Waiting for turn...\n"] : List (Event F)) = [] := rfl
  have hs : ∀ (t : List (Event F)) (a b : Int),
      halfTurns (.call .my_field_ .Shoot a b :: t) = halfTurns t := fun _ _ _ => rfl
  unfold WaitForTurn WriteResult
  cases ReadMove st.socket with
  | threw => rfl
  | undefinedBehaviour s1 => rfl
  | value move s1 =>
    dsimp only
    cases net_write s1 [toChar env.signedChar (env.Shoot st.my_field_ move.2 move.1).1] <;>
      simp only [halfTurns_append, hs, halfTurns_ApplyMove, hw, hc, List.append_nil]

theorem halfTurns_half (env : Env F) (b : Bool) (st : State F) :
    halfTurns (if b then MakeTurn env st else WaitForTurn env st).trace = [] := by
  cases b
  · simpa using halfTurns_WaitForTurn env st
  · simpa using halfTurns_MakeTurn env st

theorem StartGameLoop_ended (env : Env F) (fuel : Nat) (b : Bool) (st : State F)
    (h : IsGameEnded env st = true) :
    StartGameLoop env (fuel + 1) b st = ⟨.returned, st, []⟩ := by
  simp [StartGameLoop, h]

theorem StartGameLoop_continue (env : Env F) (fuel : Nat) (b : Bool) (st : State F)
    (h : IsGameEnded env st = false)
    (hr : (if b then MakeTurn env st else WaitForTurn env st).status = .returned) :
    StartGameLoop env (fuel + 1) b st =
      ⟨(StartGameLoop env fuel (!b)
          (if b then MakeTurn env st else WaitForTurn env st).state).status,
        (StartGameLoop env fuel (!b)
          (if b then MakeTurn env st else WaitForTurn env st).state).state,
        [.PrintFields st.my_field_ st.other_field_, .halfTurn b st.my_field_ st.other_field_]
          ++ (if b then MakeTurn env st else WaitForTurn env st).trace
          ++ (StartGameLoop env fuel (!b)
          (if b then MakeTurn env st else WaitForTurn env st).state).trace⟩ := by
  rw [StartGameLoop]
  simp only [h, Bool.false_eq_true, if_false]
  split
  · rfl
  · rename_i hne
    exact absurd hr (hne · )

theorem StartGameLoop_stop (env : Env F) (fuel : Nat) (b : Bool) (st : State F)
    (h : IsGameEnded env st = false)
    (hr : (if b then MakeTurn env st else WaitForTurn env st).status ≠ .returned) :
    StartGameLoop env (fuel + 1) b st =
      ⟨(if b then MakeTurn env st else WaitForTurn env st).status,
        (if b then MakeTurn env st else WaitForTurn env st).state,
        [.PrintFields st.my_field_ st.other_field_, .halfTurn b st.my_field_ st.other_field_]
          ++ (if b then MakeTurn env st else WaitForTurn env st).trace⟩ := by
  rw [StartGameLoop]
  simp only [h, Bool.false_eq_true, if_false]

theorem MakeTurn_consumes (env : Env F) (st : State F)
    (h : (MakeTurn env st).status = .returned) :
    (MakeTurn env st).state.socket.incoming.length < st.socket.incoming.length := by
  revert h
  unfold MakeTurn WriteMove ReadResult net_read net_write
  cases promptLoop st.cin with
  | mk n o =>
    cases o with
    | none => intro h; cases h
    | some p =>
      obtain ⟨move, cin1⟩ := p
      dsimp only
      by_cases hs : (MoveToString env.signedChar move).length ≤ st.socket.sendLimit
      · rw [if_pos hs]
        dsimp only
        by_cases hl : 1 ≤ st.socket.incoming.length
        · rw [if_pos hl]
          dsimp only
          intro _
          rw [List.length_drop]
          omega
        · rw [if_neg hl]
          intro h; cases h
      · rw [if_neg hs]
        intro h; cases h

theorem WaitForTurn_consumes (env : Env F) (st : State F)
    (h : (WaitForTurn env st).status = .returned) :
    (WaitForTurn env st).state.socket.incoming.length < st.socket.incoming.length := by
  revert h
  unfold WaitForTurn WriteResult ReadMove net_read net_write
  by_cases hl : 2 ≤ st.socket.incoming.length
  · rw [if_pos hl]
    dsimp only
    cases ParseMove (List.take 2 st.socket.incoming) with
    | none => intro h; cases h
    | some move =>
      dsimp only
      by_cases hs : [toChar env.signedChar (env.Shoot st.my_field_ move.2 move.1).1].length
          ≤ st.socket.sendLimit
      · rw [if_pos hs]
        dsimp only
        intro _
        rw [List.length_drop]
        omega
      · rw [if_neg hs]
        intro h; cases h
  · rw [if_neg hl]
    intro h; cases h

theorem half_consumes (env : Env F) (b : Bool) (st : State F)
    (h : (if b then MakeTurn env st else WaitForTurn env st).status = .returned) :
    (if b then MakeTurn env st else WaitForTurn env st).state.socket.incoming.length
      < st.socket.incoming.length := by
  cases b
  · simpa using WaitForTurn_consumes env st (by simpa using h)
  · simpa using MakeTurn_consumes env st (by simpa using h)

theorem MakeTurn_status (env : Env F) (st : State F) :
    (MakeTurn env st).status ≠ .outOfFuel ∧ (MakeTurn env st).status ≠ .undefinedBehaviour := by
  unfold MakeTurn WriteMove
  cases promptLoop st.cin with
  | mk n o =>
    cases o with
    | none => exact ⟨fun h => (by cases h), fun h => (by cases h)⟩
    | some p =>
      obtain ⟨move, cin1⟩ := p
      dsimp only
      cases net_write st.socket (MoveToString env.signedChar move) with
      | none => exact ⟨fun h => (by cases h), fun h => (by cases h)⟩
      | some socket1 =>
        dsimp only
        cases ReadResult socket1 with
        | none => exact ⟨fun h => (by cases h), fun h => (by cases h)⟩
        | some q => exact ⟨fun h => (by cases h), fun h => (by cases h)⟩

theorem WaitForTurn_status (env : Env F) (st : State F) :
    (WaitForTurn env st).status ≠ .outOfFuel ∧ (WaitForTurn env st).status ≠ .hangs := by
  unfold WaitForTurn WriteResult
  cases ReadMove st.socket with
  | threw => exact ⟨fun h => (by cases h), fun h => (by cases h)⟩
  | undefinedBehaviour s1 => exact ⟨fun h => (by cases h), fun h => (by cases h)⟩
  | value move s1 =>
    dsimp only
    cases net_write s1 [toChar env.signedChar (env.Shoot st.my_field_ move.2 move.1).1] with
    | none => exact ⟨fun h => (by cases h), fun h => (by cases h)⟩
    | some s2 => exact ⟨fun h => (by cases h), fun h => (by cases h)⟩

theorem StartGameLoop_fuel (env : Env F) :
    ∀ (fuel : Nat) (b : Bool) (st : State F), st.socket.incoming.length < fuel →
      (StartGameLoop env fuel b st).status ≠ .outOfFuel := by
  intro fuel
  induction fuel with
  | zero => intro b st h; omega
  | succ fuel ih =>
    intro b st h
    by_cases hE : IsGameEnded env st = true
    · rw [StartGameLoop_ended env fuel b st hE]
      intro h; cases h
    · have hE : IsGameEnded env st = false := by simpa using hE
      by_cases hr : (if b then MakeTurn env st else WaitForTurn env st).status = .returned
      · rw [StartGameLoop_continue env fuel b st hE hr]
        exact ih _ _ (by have := half_consumes env b st hr; omega)
      · rw [StartGameLoop_stop env fuel b st hE hr]
        cases b
        · simpa using (WaitForTurn_status env st).1
        · simpa using (MakeTurn_status env st).1

theorem halfTurns_StartGameLoop (env : Env F) :
    ∀ (fuel : Nat) (b : Bool) (st : State F) (n : Nat) (k : Bool),
      (halfTurns (StartGameLoop env fuel b st).trace)[n]? = some k →
      (k = true ↔ (b = true ∧ n % 2 = 0) ∨ (b = false ∧ n % 2 = 1)) := by
  intro fuel
  induction fuel with
  | zero => intro b st n k h; simp [StartGameLoop, halfTurns] at h
  | succ fuel ih =>
    intro b st n k h
    have hd : halfTurns ([.PrintFields st.my_field_ st.other_field_,
        .halfTurn b st.my_field_ st.other_field_] : List (Event F)) = [b] := rfl
    by_cases hE : IsGameEnded env st = true
    · rw [StartGameLoop_ended env fuel b st hE] at h
      simp [halfTurns] at h
    · have hE : IsGameEnded env st = false := by simpa using hE
      have key : ∃ t, halfTurns (StartGameLoop env (fuel + 1) b st).trace = b :: t ∧
          ∀ n k, t[n]? = some k →
            (k = true ↔ ((!b) = true ∧ n % 2 = 0) ∨ ((!b) = false ∧ n % 2 = 1)) := by
        by_cases hr : (if b then MakeTurn env st else WaitForTurn env st).status = .returned
        · refine ⟨_, ?_, ih (!b) (if b then MakeTurn env st else WaitForTurn env st).state⟩
          rw [StartGameLoop_continue env fuel b st hE hr]
          simp only [halfTurns_append, hd, halfTurns_half, List.append_nil]
          rfl
        · refine ⟨[], ?_, by simp⟩
          rw [StartGameLoop_stop env fuel b st hE hr]
          simp only [halfTurns_append, hd, halfTurns_half, List.append_nil]
      obtain ⟨t, ht, hk⟩ := key
      rw [ht] at h
      cases n with
      | zero =>
        simp only [List.getElem?_cons_zero, Option.some.injEq] at h
        subst h
        cases b <;> simp
      | succ n =>
        simp only [List.getElem?_cons_succ] at h
        have := hk n k h
        rw [this]
        cases b <;> simp <;> omega

theorem halfTurn_not_mem_half (env : Env F) (b : Bool) (st : State F) (m : Bool)
    (my other : F) :
    Event.halfTurn m my other ∉ (if b then MakeTurn env st else WaitForTurn env st).trace := by
  intro h
  have hm : m ∈ halfTurns (if b then MakeTurn env st else WaitForTurn env st).trace :=
    List.mem_filterMap.2 ⟨_, h, rfl⟩
  rw [halfTurns_half] at hm
  exact absurd hm (List.not_mem_nil m)

theorem halfTurn_mem_StartGameLoop (env : Env F) :
    ∀ (fuel : Nat) (b : Bool) (st : State F) (m : Bool) (my other : F),
      Event.halfTurn m my other ∈ (StartGameLoop env fuel b st).trace →
      env.IsLoser my = false ∧ env.IsLoser other = false := by
  intro fuel
  induction fuel with
  | zero => intro b st m my other h; simp [StartGameLoop] at h
  | succ fuel ih =>
    intro b st m my other h
    by_cases hE : IsGameEnded env st = true
    · rw [StartGameLoop_ended env fuel b st hE] at h
      simp at h
    · have hE : IsGameEnded env st = false := by simpa using hE
      have hhead : Event.halfTurn m my other ∈
          ([.PrintFields st.my_field_ st.other_field_,
            .halfTurn b st.my_field_ st.other_field_] : List (Event F)) →
          env.IsLoser my = false ∧ env.IsLoser other = false := by
        intro hm
        simp only [List.mem_cons, List.mem_singleton, Event.halfTurn.injEq, reduceCtorEq,
          false_or, List.not_mem_nil, or_false] at hm
        obtain ⟨-, rfl, rfl⟩ := hm
        simpa [IsGameEnded] using hE
      by_cases hr : (if b then MakeTurn env st else WaitForTurn env st).status = .returned
      · rw [StartGameLoop_continue env fuel b st hE hr] at h
        simp only [List.mem_append] at h
        rcases h with (h | h) | h
        · exact hhead h
        · exact absurd h (halfTurn_not_mem_half env b st m my other)
        · exact ih _ _ m my other h
      · rw [StartGameLoop_stop env fuel b st hE hr] at h
        simp only [List.mem_append] at h
        rcases h with h | h
        · exact hhead h
        · exact absurd h (halfTurn_not_mem_half env b st m my other)

theorem StartGameLoop_returned (env : Env F) :
    ∀ (fuel : Nat) (b : Bool) (st : State F),
      (StartGameLoop env fuel b st).status = .returned →
      IsGameEnded env (StartGameLoop env fuel b st).state = true := by
  intro fuel
  induction fuel with
  | zero => intro b st h; simp [StartGameLoop] at h
  | succ fuel ih =>
    intro b st h
    by_cases hE : IsGameEnded env st = true
    · rw [StartGameLoop_ended env fuel b st hE]
      exact hE
    · have hE : IsGameEnded env st = false := by simpa using hE
      by_cases hr : (if b then MakeTurn env st else WaitForTurn env st).status = .returned
      · rw [StartGameLoop_continue env fuel b st hE hr] at h ⊢
        exact ih _ _ h
      · rw [StartGameLoop_stop env fuel b st hE hr] at h
        exact absurd h hr

theorem StartGameLoop_trace_head (env : Env F) (fuel : Nat) (b : Bool) (st : State F)
    (hE : IsGameEnded env st = false) :
    ∃ t, (StartGameLoop env (fuel + 1) b st).trace =
      [.PrintFields st.my_field_ st.other_field_, .halfTurn b st.my_field_ st.other_field_]
        ++ (if b then MakeTurn env st else WaitForTurn env st).trace ++ t ∧
      ((if b then MakeTurn env st else WaitForTurn env st).status = .returned →
        t = (StartGameLoop env fuel (!b)
          (if b then MakeTurn env st else WaitForTurn env st).state).trace) := by
  by_cases hr : (if b then MakeTurn env st else WaitForTurn env st).status = .returned
  · rw [StartGameLoop_continue env fuel b st hE hr]
    exact ⟨_, rfl, fun _ => rfl⟩
  · rw [StartGameLoop_stop env fuel b st hE hr]
    exact ⟨[], by simp, fun h => absurd h hr⟩

theorem isMyTurn_zero (b : Bool) : isMyTurn b 0 = b := by
  cases b <;> rfl

theorem isMyTurn_succ (b : Bool) (n : Nat) : (!isMyTurn b n) = isMyTurn b (n + 1) := by
  rcases Nat.mod_two_eq_zero_or_one n with h | h
  · have h1 : (n + 1) % 2 = 1 := by omega
    cases b <;> simp [isMyTurn, h, h1]
  · have h1 : (n + 1) % 2 = 0 := by omega
    cases b <;> simp [isMyTurn, h, h1]

theorem StartGameLoop_eq_alternatingLoop (env : Env F) (b : Bool) :
    ∀ (fuel n : Nat) (st : State F),
      StartGameLoop env fuel (isMyTurn b n) st = alternatingLoop env b fuel n st := by
  intro fuel
  induction fuel with
  | zero => intro n st; rfl
  | succ fuel ih =>
    intro n st
    rw [StartGameLoop, alternatingLoop]
    simp only [isMyTurn_succ, ih]

/-- C6: the turn loop alternates strictly.  Started with initiative `b`, the `n`-th
half-turn that `StartGame` dispatches (`n = 0, 1, 2, ...`) is `MakeTurn` exactly when
`b` holds and `n` is even or `b` does not hold and `n` is odd, and `WaitForTurn`
otherwise: the whole run of `StartGame` (status, final state and trace, with what
each half-turn did) is the run of the loop that executes `MakeTurn` at the indices
given by that rule and `WaitForTurn` at the others, and the marks of the dispatched
half-turns in the trace follow the rule too.  When the game is not over at the call,
the first half-turn is `MakeTurn` run on the initial state if `b` holds and
`WaitForTurn` run on it otherwise.  `StartServer` runs the loop without initiative
on the accepted socket (its first half-turn is `WaitForTurn`: it waits for a move),
and `StartClient` runs it with initiative on the connected socket (its first
half-turn is `MakeTurn`: it sends a move). -/
theorem StartGame_alternates (env : Env F) :
    (∀ (b : Bool) (st : State F) (n : Nat) (k : Bool),
      (halfTurns (StartGame env b st).trace)[n]? = some k →
      (k = true ↔ (b = true ∧ n % 2 = 0) ∨ (b = false ∧ n % 2 = 1))) ∧
    (∀ (field : F) (w : World) (socket : Socket),
      w.listen = true → w.accepted = some socket →
      (StartServer env field w).2 = [.cout "Waiting for connection...\n"] ++
        (StartGame env false ⟨field, env.defaultField, socket, w.cin⟩).trace) ∧
    (∀ (field : F) (ip_str : Str) (w : World) (socket : Socket),
      w.addressOk ip_str = true → w.connected = some socket →
      (StartClient env field ip_str w).2 =
        (StartGame env true ⟨field, env.defaultField, socket, w.cin⟩).trace) ∧
    (∀ (field : F) (w : World) (n : Nat) (k : Bool),
      (halfTurns (StartServer env field w).2)[n]? = some k → (k = true ↔ n % 2 = 1)) ∧
    (∀ (field : F) (ip_str : Str) (w : World) (n : Nat) (k : Bool),
      (halfTurns (StartClient env field ip_str w).2)[n]? = some k →
      (k = true ↔ n % 2 = 0)) ∧
    (∀ (b : Bool) (st : State F),
      StartGame env b st = alternatingLoop env b (st.socket.incoming.length + 1) 0 st) ∧
    (∀ (b : Bool) (st : State F), IsGameEnded env st = false →
      ∃ t, (StartGame env b st).trace =
        [.PrintFields st.my_field_ st.other_field_, .halfTurn b st.my_field_ st.other_field_]
          ++ (if b then MakeTurn env st else WaitForTurn env st).trace ++ t) ∧
    (∀ (field : F) (w : World) (socket : Socket),
      w.listen = true → w.accepted = some socket →
      IsGameEnded env ⟨field, env.defaultField, socket, w.cin⟩ = false →
      ∃ t, (StartServer env field w).2 =
        [.cout "Waiting for connection...\n", .PrintFields field env.defaultField,
          .halfTurn false field env.defaultField]
          ++ (WaitForTurn env ⟨field, env.defaultField, socket, w.cin⟩).trace ++ t) ∧
    (∀ (field : F) (ip_str : Str) (w : World) (socket : Socket),
      w.addressOk ip_str = true → w.connected = some socket →
      IsGameEnded env ⟨field, env.defaultField, socket, w.cin⟩ = false →
      ∃ t, (StartClient env field ip_str w).2 =
        [.PrintFields field env.defaultField, .halfTurn true field env.defaultField]
          ++ (MakeTurn env ⟨field, env.defaultField, socket, w.cin⟩).trace ++ t) := by
  have hc : ∀ (x : String) (t : List (Event F)), halfTurns (.cout x :: t) = halfTurns t :=
    fun _ _ => rfl
  have hn : halfTurns ([] : List (Event F)) = [] := rfl
  have hfirst : ∀ (b : Bool) (st : State F), IsGameEnded env st = false →
      ∃ t, (StartGame env b st).trace =
        [.PrintFields st.my_field_ st.other_field_, .halfTurn b st.my_field_ st.other_field_]
          ++ (if b then MakeTurn env st else WaitForTurn env st).trace ++ t := by
    intro b st hE
    obtain ⟨t, ht, -⟩ := StartGameLoop_trace_head env st.socket.incoming.length b st hE
    exact ⟨t, ht⟩
  refine ⟨fun b st n k h => halfTurns_StartGameLoop env _ b st n k h, ?_, ?_, ?_, ?_, ?_,
    hfirst, ?_, ?_⟩
  · intro field w socket hl ha
    simp [StartServer, hl, ha]
  · intro field ip_str w socket hl ha
    simp [StartClient, hl, ha]
  · intro field w n k h
    unfold StartServer at h
    split_ifs at h
    · simp [hn] at h
    · split at h
      · simp [hc, hn] at h
      · simp only [List.singleton_append, hc] at h
        simpa using halfTurns_StartGameLoop env _ false _ n k h
  · intro field ip_str w n k h
    unfold StartClient at h
    split_ifs at h
    · simp [hc, hn] at h
    · split at h
      · simp [hc, hn] at h
      · simpa using halfTurns_StartGameLoop env _ true _ n k h
  · intro b st
    have h := StartGameLoop_eq_alternatingLoop env b (st.socket.incoming.length + 1) 0 st
    rw [isMyTurn_zero] at h
    exact h
  · intro field w socket hl ha hE
    obtain ⟨t, ht⟩ := hfirst false _ hE
    refine ⟨t, ?_⟩
    simp only [Bool.false_eq_true, if_false] at ht
    simp [StartServer, hl, ha, ht]
  · intro field ip_str w socket hl ha hE
    obtain ⟨t, ht⟩ := hfirst true _ hE
    refine ⟨t, ?_⟩
    simp only [if_true] at ht
    simp [StartClient, hl, ha, ht]

theorem StartGame_alternates_witness :
    (halfTurns (StartGame sampleEnv false
      ⟨sampleField, shadowField, ⟨str "A1" ++ [0] ++ str "B1", 10, []⟩,
        [str "b2", str "B2"]⟩).trace)[1]? = some true ∧
    (true = true ↔ (false = true ∧ 1 % 2 = 0) ∨ (false = false ∧ 1 % 2 = 1)) ∧
    (StartGame sampleEnv false
      ⟨sampleField, shadowField, ⟨str "A1" ++ [0] ++ str "B1", 10, []⟩,
        [str "b2", str "B2"]⟩).trace =
      [.PrintFields sampleField shadowField,
       .halfTurn false sampleField shadowField,
       .cout "Waiting for turn...\n",
       .call .my_field_ .Shoot 0 0,
       .call .my_field_ .MarkHit 0 0,
       .write [1],
       .PrintFields ⟨[[(1, 0)], [(2, 2)]], [(0, 0)], 2⟩ shadowField,
       .halfTurn true ⟨[[(1, 0)], [(2, 2)]], [(0, 0)], 2⟩ shadowField,
       .cout "Your Turn: ",
       .cout "Your Turn: ",
       .write (str "B2"),
       .call .other_field_ .MarkMiss 1 1,
       .PrintFields ⟨[[(1, 0)], [(2, 2)]], [(0, 0)], 2⟩ ⟨[], [(1, 1)], 3⟩,
       .halfTurn false ⟨[[(1, 0)], [(2, 2)]], [(0, 0)], 2⟩ ⟨[], [(1, 1)], 3⟩,
       .cout "Waiting for turn...\n",
       .call .my_field_ .Shoot 0 1,
       .call .my_field_ .MarkMiss 0 1,
       .write [0],
       .PrintFields ⟨[[(1, 0)], [(2, 2)]], [(0, 1), (0, 0)], 2⟩ ⟨[], [(1, 1)], 3⟩,
       .halfTurn true ⟨[[(1, 0)], [(2, 2)]], [(0, 1), (0, 0)], 2⟩ ⟨[], [(1, 1)], 3⟩,
       .cout "Your Turn: "] :=
  ⟨by decide, (StartGame_alternates sampleEnv).1 false
    ⟨sampleField, shadowField, ⟨str "A1" ++ [0] ++ str "B1", 10, []⟩, [str "b2", str "B2"]⟩
    1 true (by decide), by decide⟩

/-- C7: `StartGame` tests termination before every half-turn.  Every half-turn in its
trace was dispatched with boards `my_field_` and `other_field_` that both report
`IsLoser() = false`; when `StartGame` returns, at least one of the two boards
reports `IsLoser()`; when either board already reports `IsLoser()` at the call,
`StartGame` returns at once with the state unchanged and an empty trace (no
half-turn, no write); and the fuel of the model is never exhausted. -/
theorem StartGame_checks_before_half_turn (env : Env F) (b : Bool) (st : State F) :
    (∀ (m : Bool) (my other : F), Event.halfTurn m my other ∈ (StartGame env b st).trace →
      env.IsLoser my = false ∧ env.IsLoser other = false) ∧
    ((StartGame env b st).status = .returned →
      env.IsLoser (StartGame env b st).state.my_field_ = true ∨
      env.IsLoser (StartGame env b st).state.other_field_ = true) ∧
    (env.IsLoser st.my_field_ = true ∨ env.IsLoser st.other_field_ = true →
      StartGame env b st = ⟨.returned, st, []⟩) ∧
    (StartGame env b st).status ≠ .outOfFuel := by
  refine ⟨fun m my other h => halfTurn_mem_StartGameLoop env _ b st m my other h, ?_, ?_,
    StartGameLoop_fuel env _ b st (Nat.lt_succ_self _)⟩
  · intro h
    have := StartGameLoop_returned env _ b st h
    simpa [IsGameEnded] using this
  · intro h
    exact StartGameLoop_ended env _ b st (by simpa [IsGameEnded] using h)

theorem StartGame_checks_before_half_turn_witness :
    (StartGame sampleEnv false
      ⟨sampleField, shadowField, ⟨str "A1" ++ [0] ++ str "A2" ++ [0] ++ str "C3", 10, []⟩,
        [str "E5", str "E6"]⟩).status = .returned ∧
    (SpecField.IsLoser (StartGame sampleEnv false
      ⟨sampleField, shadowField, ⟨str "A1" ++ [0] ++ str "A2" ++ [0] ++ str "C3", 10, []⟩,
        [str "E5", str "E6"]⟩).state.my_field_ = true ∨
     SpecField.IsLoser (StartGame sampleEnv false
      ⟨sampleField, shadowField, ⟨str "A1" ++ [0] ++ str "A2" ++ [0] ++ str "C3", 10, []⟩,
        [str "E5", str "E6"]⟩).state.other_field_ = true) :=
  ⟨by decide, (StartGame_checks_before_half_turn sampleEnv false
    ⟨sampleField, shadowField, ⟨str "A1" ++ [0] ++ str "A2" ++ [0] ++ str "C3", 10, []⟩,
      [str "E5", str "E6"]⟩).2.1 (by decide)⟩

/-- C10: when the received result byte `r` is the value of none of `MISS`, `HIT`,
`KILL`, `ReadResult` still yields the value `r`, `ApplyMove` applies no operation
and leaves the board as it is, and the `MakeTurn` half-turn (move validated and
sent) returns with no board call in its trace and both boards unchanged; in
`StartGame` the next half-turn is then dispatched without initiative
(`WaitForTurn`), on the same two boards. -/
theorem MakeTurn_unknown_result (env : Env F) (st : State F) (r : Int) (rest : Str)
    (hmove : ∃ s ∈ st.cin, accepted s = true)
    (hsend : 2 ≤ st.socket.sendLimit)
    (hin : st.socket.incoming = r :: rest)
    (hr : r ≠ env.MISS ∧ r ≠ env.HIT ∧ r ≠ env.KILL) :
    (∀ socket : Socket, socket.incoming = r :: rest →
      ReadResult socket = some (r, { socket with incoming := rest })) ∧
    (∀ (board : Board) (field : F) (move : Int × Int),
      ApplyMove env board field move r = (field, [])) ∧
    (MakeTurn env st).status = .returned ∧
    boardCalls (MakeTurn env st).trace = [] ∧
    (MakeTurn env st).state.my_field_ = st.my_field_ ∧
    (MakeTurn env st).state.other_field_ = st.other_field_ ∧
    (IsGameEnded env st = false →
      ∃ t, (StartGame env true st).trace =
        [.PrintFields st.my_field_ st.other_field_, .halfTurn true st.my_field_ st.other_field_]
          ++ (MakeTurn env st).trace
          ++ [.PrintFields st.my_field_ st.other_field_,
              .halfTurn false st.my_field_ st.other_field_]
          ++ t) := by
  have hap : ∀ (board : Board) (field : F) (move : Int × Int),
      ApplyMove env board field move r = (field, []) := by
    intro board field move
    simp [ApplyMove, hr.1, hr.2.1, hr.2.2]
  obtain ⟨c, hfind⟩ := find_of_mem st.cin hmove
  obtain ⟨n0, m, cin0, -, hm⟩ := promptLoop_of_find st.cin c hfind
  obtain ⟨n, cin1, heq⟩ := MakeTurn_eq env st c m r rest hfind hm hsend hin
  rw [hap] at heq
  have hp : boardCalls (prompts n : List (Event F)) = [] := boardCalls_prompts n
  have hst : (MakeTurn env st).status = .returned := by rw [heq]
  have hmy : (MakeTurn env st).state.my_field_ = st.my_field_ := by rw [heq]
  have hot : (MakeTurn env st).state.other_field_ = st.other_field_ := by rw [heq]
  refine ⟨?_, hap, hst, ?_, hmy, hot, ?_⟩
  · intro socket hs
    simp [ReadResult, net_read, hs]
  · rw [heq]
    simp only [boardCalls, List.filterMap_append] at hp ⊢
    simp [hp]
  · intro hE
    have hlen : st.socket.incoming.length + 1 = (rest.length + 1) + 1 := by simp [hin]
    obtain ⟨t, ht, htr⟩ := StartGameLoop_trace_head env (rest.length + 1) true st hE
    simp only [if_true, Bool.not_true] at ht htr
    have hE1 : IsGameEnded env (MakeTurn env st).state = false := by
      simpa [IsGameEnded, hmy, hot] using hE
    obtain ⟨t1, ht1, -⟩ :=
      StartGameLoop_trace_head env rest.length false (MakeTurn env st).state hE1
    refine ⟨(WaitForTurn env (MakeTurn env st).state).trace ++ t1, ?_⟩
    unfold StartGame
    rw [hlen, ht, htr hst]
    simp only [Bool.not_true, Bool.false_eq_true, if_false, hmy, hot] at ht1
    rw [ht1]
    simp only [List.append_assoc]

theorem MakeTurn_unknown_result_witness :
    ApplyMove sampleEnv .other_field_ shadowField (3, 4) 7 = (shadowField, []) ∧
    (MakeTurn sampleEnv ⟨sampleField, shadowField, ⟨[7], 2, []⟩, [str "D5"]⟩).status
      = .returned ∧
    boardCalls (MakeTurn sampleEnv ⟨sampleField, shadowField, ⟨[7], 2, []⟩, [str "D5"]⟩).trace
      = [] ∧
    (MakeTurn sampleEnv ⟨sampleField, shadowField, ⟨[7], 2, []⟩, [str "D5"]⟩).state.my_field_
      = sampleField ∧
    (MakeTurn sampleEnv ⟨sampleField, shadowField, ⟨[7], 2, []⟩, [str "D5"]⟩).state.other_field_
      = shadowField :=
  have h := MakeTurn_unknown_result sampleEnv
    ⟨sampleField, shadowField, ⟨[7], 2, []⟩, [str "D5"]⟩ 7 []
    ⟨str "D5", by decide, by decide⟩ (by decide) (by decide)
    ⟨by decide, by decide, by decide⟩
  ⟨h.2.1 _ _ _, h.2.2.1, h.2.2.2.1, h.2.2.2.2.1, h.2.2.2.2.2.1⟩

end Loop



/-! ## Coordinates that reach the board, and errors -/

section Errors

variable {F : Type}

theorem promptLoop_some (cin : List Str) (n : Nat) (m : Int × Int) (rest : List Str)
    (h : promptLoop cin = (n, some (m, rest))) : ∃ raw ∈ cin, ParseMove raw = some m := by
  induction cin generalizing n with
  | nil => simp [promptLoop] at h
  | cons raw tl ih =>
    cases hp : ParseMove raw with
    | some m1 =>
      simp only [promptLoop, hp, Prod.mk.injEq, Option.some.injEq] at h
      exact ⟨raw, List.mem_cons_self _ _, by rw [hp, h.2.1]⟩
    | none =>
      simp only [promptLoop, hp, Prod.mk.injEq] at h
      obtain ⟨raw1, hmem, hr⟩ := ih (promptLoop tl).1 (Prod.ext rfl h.2)
      exact ⟨raw1, List.mem_cons_of_mem _ hmem, hr⟩

theorem ParseMove_range (s : Str) (m : Int × Int) (h : ParseMove s = some m) :
    0 ≤ m.1 ∧ m.1 ≤ 8 ∧ 0 ≤ m.2 ∧ m.2 ≤ 8 := by
  obtain ⟨c0, c1, -, h1, h2, h3, h4, rfl⟩ := (ParseMove_some_iff s m).1 h
  exact ⟨by simp only; omega, by simp only; omega, by simp only; omega, by simp only; omega⟩

theorem boardCalls_ApplyMove_range (env : Env F) (board : Board) (field : F)
    (move : Int × Int) (result : Int)
    (hm : 0 ≤ move.1 ∧ move.1 ≤ 8 ∧ 0 ≤ move.2 ∧ move.2 ≤ 8) :
    ∀ c ∈ boardCalls (ApplyMove env board field move result).2,
      0 ≤ c.2.2.1 ∧ c.2.2.1 ≤ 8 ∧ 0 ≤ c.2.2.2 ∧ c.2.2.2 ≤ 8 := by
  intro c hc
  unfold ApplyMove at hc
  split_ifs at hc <;> simp [boardCalls] at hc <;> subst hc <;>
    exact ⟨hm.2.2.1, hm.2.2.2, hm.1, hm.2.1⟩

theorem boardCalls_append (a b : List (Event F)) :
    boardCalls (a ++ b) = boardCalls a ++ boardCalls b := by
  simp [boardCalls, List.filterMap_append]

/-- Every board call of a `MakeTurn` half-turn, whatever is typed, has both
arguments in `[0, 8]`. -/
theorem MakeTurn_calls_in_range (env : Env F) (st : State F) :
    ∀ c ∈ boardCalls (MakeTurn env st).trace,
      0 ≤ c.2.2.1 ∧ c.2.2.1 ≤ 8 ∧ 0 ≤ c.2.2.2 ∧ c.2.2.2 ≤ 8 := by
  have hw : ∀ d : Str, boardCalls ([.write d] : List (Event F)) = [] := fun _ => rfl
  unfold MakeTurn WriteMove
  cases hp : promptLoop st.cin with
  | mk n o =>
    cases o with
    | none =>
      intro c hc
      simp [boardCalls_prompts] at hc
    | some p =>
      obtain ⟨move, cin1⟩ := p
      obtain ⟨raw, -, hraw⟩ := promptLoop_some st.cin n move cin1 hp
      have hrange := ParseMove_range raw move hraw
      dsimp only
      cases net_write st.socket (MoveToString env.signedChar move) with
      | none =>
        intro c hc
        simp [boardCalls_append, boardCalls_prompts, hw] at hc
      | some socket1 =>
        dsimp only
        cases ReadResult socket1 with
        | none =>
          intro c hc
          simp [boardCalls_append, boardCalls_prompts, hw] at hc
        | some q =>
          intro c hc
          simp only [boardCalls_append, boardCalls_prompts, hw, List.nil_append] at hc
          exact boardCalls_ApplyMove_range env _ _ move q.1 hrange c hc

/-- Every board call of a `WaitForTurn` half-turn that received a valid move has both
arguments in `[0, 8]` (after invalid bytes the behaviour is undefined and the trace
of the model stops before any call). -/
theorem WaitForTurn_calls_in_range (env : Env F) (st : State F) :
    ∀ c ∈ boardCalls (WaitForTurn env st).trace,
      0 ≤ c.2.2.1 ∧ c.2.2.1 ≤ 8 ∧ 0 ≤ c.2.2.2 ∧ c.2.2.2 ≤ 8 := by
  have hw : ∀ d : Str, boardCalls ([.write d] : List (Event F)) = [] := fun _ => rfl
  have hc0 : boardCalls ([.cout "Waiting for turn...\n"] : List (Event F)) = [] := rfl
  have hs : ∀ (t : List (Event F)) (a b : Int),
      boardCalls (.call .my_field_ .Shoot a b :: t) =
        (Board.my_field_, BoardOp.Shoot, a, b) :: boardCalls t := fun _ _ _ => rfl
  unfold WaitForTurn WriteResult ReadMove
  cases net_read st.socket 2 with
  | none => intro c hc; simp [hc0] at hc
  | some p =>
    obtain ⟨recv_buf, socket1⟩ := p
    dsimp only
    cases hp : ParseMove recv_buf with
    | none => intro c hc; simp [hc0] at hc
    | some move =>
      have hrange := ParseMove_range recv_buf move hp
      have hap := boardCalls_ApplyMove_range env .my_field_
        (env.Shoot st.my_field_ move.2 move.1).2 move
        (env.Shoot st.my_field_ move.2 move.1).1 hrange
      dsimp only
      cases net_write socket1 [toChar env.signedChar (env.Shoot st.my_field_ move.2 move.1).1]
      all_goals
        intro c hc
        simp only [boardCalls_append, hc0, hs, hw, List.nil_append, List.append_nil,
          List.mem_cons] at hc
        rcases hc with rfl | hc
        · exact ⟨hrange.2.2.1, hrange.2.2.2, hrange.1, hrange.2.1⟩
        · exact hap c hc

/-- Two received bytes that are not a valid move make `WaitForTurn` dereference an
empty optional. -/
theorem WaitForTurn_invalid_bytes (env : Env F) (st : State F) (c0 c1 : Int) (rest : Str)
    (hin : st.socket.incoming = c0 :: c1 :: rest) (hbad : ParseMove [c0, c1] = none) :
    (WaitForTurn env st).status = .undefinedBehaviour := by
  simp [WaitForTurn, ReadMove, net_read_cons2 st.socket c0 c1 rest hin, hbad]

/-- C8 (defect of the code): the two received bytes `J0` are not a valid move, and
`WaitForTurn` does not fail fast on them: `ReadMove` dereferences the empty optional
that `ParseMove` returned, which is undefined behaviour, and the turn loop ends in
that state. -/
theorem WaitForTurn_invalid_move_undefined :
    ParseMove (str "J0") = none ∧
    ReadMove ⟨str "J0", 10, []⟩ = .undefinedBehaviour ⟨[], 10, []⟩ ∧
    (WaitForTurn sampleEnv ⟨sampleField, shadowField, ⟨str "J0", 10, []⟩, []⟩).status
      = .undefinedBehaviour ∧
    (StartGame sampleEnv false ⟨sampleField, shadowField, ⟨str "J0", 10, []⟩, []⟩).status
      = .undefinedBehaviour := by
  decide

/-- When the turn loop of the server throws, `main` returns 0. -/
theorem main_server_exit_of_threw (env : Env F) (argv : List Str) (w : World)
    (socket : Socket) (seed port : Int) (hargc : argv.length = 3)
    (hseed : env.stoi (argv.getD 1 []) = some seed)
    (hport : env.stoi (argv.getD 2 []) = some port)
    (hl : w.listen = true) (ha : w.accepted = some socket)
    (ht : (StartGame env false
      ⟨env.GetRandomField seed, env.defaultField, socket, w.cin⟩).status = .threw) :
    (main env argv w).1 = .code 0 := by
  simp only [main, hargc, hseed, hport, StartServer, hl, ha, ht, Exit.after]
  simp

/-- C9 (defect of the code): a connection error in the turn loop ends the game and is
reported, but the process exits with status 0.  The server accepts a connection
that the peer closes at once: the read of `WaitForTurn` throws, no further half-turn
runs, `main` prints `exc.what()` and returns 0.  The client whose connection accepts
no byte: the write of `MakeTurn` throws and `main` returns 0 as well. -/
theorem main_exit_status_after_connection_error :
    main sampleEnv [str "seabattle", str "1", str "3333"]
        ⟨[], true, some ⟨[], 10, []⟩, fun _ => true, none⟩ =
      (.code 0,
        [.cout "Waiting for connection...\n",
         .PrintFields sampleField shadowField,
         .halfTurn false sampleField shadowField,
         .cout "Waiting for turn...\n",
         .cout "exc.what()\n"]) ∧
    main sampleEnv [str "seabattle", str "1", str "127.0.0.1", str "3333"]
        ⟨[str "A1"], true, none, fun _ => true, some ⟨[0], 0, []⟩⟩ =
      (.code 0,
        [.PrintFields sampleField shadowField,
         .halfTurn true sampleField shadowField,
         .cout "Your Turn: ",
         .write (str "A1"),
         .cout "exc.what()\n"]) := by
  decide

end Errors

end Seabattle
